import Mathlib

/-!
Shallow embedding of the event-correlation tool of `cfme/utils/events.py`:
the classes `EventTool`, `EventAttr`, `Event` and `EventListener`.

Python dictionaries of event attributes are modelled as association lists
(`List (String × EventAttr)`) with insert-or-overwrite update, and the two
Python exception classes raised by this module (`TypeError`, `ValueError`)
plus dictionary `KeyError` are modelled with an `Except PyErr` result.
External REST collections (object collections and the event stream) are
modelled as lists carried in an `Appliance` record; the REST filter calls
(`manageiq_client.filters.Q`) are modelled as list filtering with the same
predicates the code builds.  Logging and callback invocation are external
side effects with no bearing on the listener state and are not modelled.
-/

namespace Events

/-- Python runtime values as used by this library: `None`, strings and
integers (event ids, target ids, names, event types and the like). -/
inductive Value where
  | vnone : Value
  | vstr : String → Value
  | vint : Int → Value
deriving DecidableEq, Repr

/-- Python truthiness (`bool(v)`) of a `Value`: `None`, the empty string and
`0` are falsy. -/
def Value.isFalsy : Value → Bool
  | .vnone => true
  | .vstr s => s.isEmpty
  | .vint n => n == 0

/-- Test `isinstance(v, numbers.Number)`: only integer values here. -/
def Value.isNumber : Value → Bool
  | .vint _ => true
  | _ => false

/-- The `str.format` rendering of a value, as used in exception messages. -/
def Value.fmt : Value → String
  | .vnone => "None"
  | .vstr s => s
  | .vint n => toString n

/-- Python runtime types, for the `type` field of `EventAttr`
(`type(self.value)` in the constructor). -/
inductive VType where
  | tNone : VType
  | tStr : VType
  | tInt : VType
deriving DecidableEq, Repr

/-- The runtime type `type(v)` of a value. -/
def Value.typeOf : Value → VType
  | .vnone => .tNone
  | .vstr _ => .tStr
  | .vint _ => .tInt

/-- Python comparison `a > b`, defined on the integer ids this library
compares; any other comparison is modelled as false. -/
def Value.vgtB : Value → Value → Bool
  | .vint a, .vint b => decide (b < a)
  | _, _ => false

/-- The exceptions raised by `cfme/utils/events.py`: `TypeError` and
`ValueError` with their messages, and `KeyError` from dictionary access. -/
inductive PyErr where
  | typeError : String → PyErr
  | valueError : String → PyErr
  | keyError : String → PyErr
deriving DecidableEq, Repr

/-- One event attribute with its comparison method: class `EventAttr`.
`name`/`value` are the single key/value pair passed to the constructor,
`type` is `attr_type or type(self.value)` and `cmp_func` the optional
custom comparison function. -/
structure EventAttr where
  name : String
  value : Value
  type : VType
  cmp_func : Option (Value → Value → Bool)

/-- The `EventAttr` constructor applied to a single `name=value` pair,
an optional `attr_type` and an optional `cmp_func`. -/
def EventAttr.make (name : String) (value : Value) (attr_type : Option VType)
    (cmp_func : Option (Value → Value → Bool)) : EventAttr :=
  { name := name, value := value, type := attr_type.getD value.typeOf,
    cmp_func := cmp_func }

/-- An argument passed to `EventAttr.match`: either an actual `EventAttr`
or any other Python object (which fails the `isinstance` check). -/
inductive PyObj where
  | attr : EventAttr → PyObj
  | nonAttr : String → PyObj

/-- Method `EventAttr.match` (named `matchAttr` because `match` is a Lean
keyword).  Raises `ValueError` unless the argument is an `EventAttr` with
the same name; if either value is falsy the result is whether both values
are `None`; otherwise `cmp_func` decides when set, else value equality. -/
def EventAttr.matchAttr (self : EventAttr) : PyObj → Except PyErr Bool
  | .nonAttr _ => .error (.valueError "Incorrect attribute is passed")
  | .attr attr =>
    if self.name ≠ attr.name then
      .error (.valueError "Incorrect attribute is passed")
    else if attr.value.isFalsy || self.value.isFalsy then
      .ok (decide (attr.value = .vnone) && decide (self.value = .vnone))
    else
      match self.cmp_func with
      | some f => .ok (f self.value attr.value)
      | none => .ok (decide (self.value = attr.value))

/-- Class `Event`: the `event_attrs` dictionary, keyed by attribute name,
in insertion order. -/
structure Event where
  event_attrs : List (String × EventAttr)

/-- The default attribute names `Event.DEFAULT_ATTRS`. -/
def DEFAULT_ATTRS : List String :=
  ["created_on", "event_type", "href", "id", "message", "source",
   "target_id", "target_type", "timestamp"]

/-- Dictionary update `d[attr.name] = attr`: overwrite in place when the key
exists (keeping insertion order, as Python dicts do), append otherwise. -/
def setAttr : List (String × EventAttr) → EventAttr → List (String × EventAttr)
  | [], a => [(a.name, a)]
  | (k, b) :: rest, a =>
    if k = a.name then (k, a) :: rest else (k, b) :: setAttr rest a

/-- Dictionary lookup `event_attrs[k]` as an option. -/
def Event.find (e : Event) (k : String) : Option EventAttr :=
  e.event_attrs.lookup k

/-- Membership test `k in event_attrs`. -/
def Event.hasKey (e : Event) (k : String) : Bool :=
  (e.find k).isSome

/-- The list of attribute names (dictionary keys) of an event. -/
def Event.keys (e : Event) : List String :=
  e.event_attrs.map Prod.fst

/-- The body of the loop of `Event.add_attrs` for one attribute: store it if
its name is `target_name` or a default attribute name, drop it (with a
logged warning, not modelled) otherwise. -/
def Event.add_attr (e : Event) (a : EventAttr) : Event :=
  if a.name = "target_name" then ⟨setAttr e.event_attrs a⟩
  else if DEFAULT_ATTRS.contains a.name then ⟨setAttr e.event_attrs a⟩
  else e

/-- Method `Event.add_attrs`: add each attribute in turn. -/
def Event.add_attrs (e : Event) (attrs : List EventAttr) : Event :=
  attrs.foldl Event.add_attr e

/-- A raw event record returned by the `event_streams` REST collection,
with the fields read by `Event.build_from_entity` and by the filters. -/
structure EventEntity where
  created_on : Value
  event_type : Value
  href : Value
  id : Value
  message : Value
  source : Value
  target_id : Value
  target_type : Value
  timestamp : Value
deriving DecidableEq, Repr

/-- Attribute access `getattr(entity, key, None)` for the default
attribute names. -/
def EventEntity.get (ent : EventEntity) (k : String) : Value :=
  if k = "created_on" then ent.created_on
  else if k = "event_type" then ent.event_type
  else if k = "href" then ent.href
  else if k = "id" then ent.id
  else if k = "message" then ent.message
  else if k = "source" then ent.source
  else if k = "target_id" then ent.target_id
  else if k = "target_type" then ent.target_type
  else if k = "timestamp" then ent.timestamp
  else .vnone

/-- Method `Event.build_from_entity`: add one `EventAttr` per default
attribute name, reading the value off the raw record. -/
def Event.build_from_entity (e : Event) (ent : EventEntity) : Event :=
  DEFAULT_ATTRS.foldl
    (fun acc k => acc.add_attr (EventAttr.make k (ent.get k) none none)) e

/-- The event descriptor `Event(event_tool=...).build_from_entity(entity)`
built by the polling loop for a raw record. -/
def eventFromEntity (ent : EventEntity) : Event :=
  Event.build_from_entity ⟨[]⟩ ent

/-- The loop of `Event.matches` over the common attribute names: return
false as soon as one common attribute fails to match, true when all match
(the `for ... else` clause), propagating any error `EventAttr.match`
raises.  The `KeyError` branches are unreachable for keys common to both
dictionaries. -/
def matchesAux (a b : Event) : List String → Except PyErr Bool
  | [] => .ok true
  | k :: ks =>
    match a.find k, b.find k with
    | some sa, some sb =>
      match sa.matchAttr (.attr sb) with
      | .error e => .error e
      | .ok false => .ok false
      | .ok true => matchesAux a b ks
    | _, _ => .error (.keyError k)

/-- The set intersection `set(self.event_attrs) ∩ set(evt.event_attrs)` of
attribute names, enumerated in the key order of `self` (Python set
iteration order is unspecified; the result of `matches` does not depend
on it). -/
def commonKeys (a b : Event) : List String :=
  a.keys.dedup.filter (fun k => decide (k ∈ b.keys))

/-- Method `Event.matches`: every attribute name common to both events must
match. -/
def Event.matches (a b : Event) : Except PyErr Bool :=
  matchesAux a b (commonKeys a b)

/-- An event descriptor is well formed when every stored attribute is keyed
by its own name — the invariant `event_attrs[attr.name] = attr` that every
descriptor built through `add_attrs` / `build_from_entity` satisfies. -/
def Event.wellFormed (e : Event) : Bool :=
  e.event_attrs.all (fun p => p.2.name == p.1)

/-- A record of an object collection (`vms`, `hosts`, `services`), with the
two fields read by `EventTool.process_id`. -/
structure ObjRecord where
  name : Value
  id : Value
deriving DecidableEq, Repr

/-- The external appliance as consumed by this module: the three mapped
REST object collections and the `event_streams` collection. -/
structure Appliance where
  vms : List ObjRecord
  hosts : List ObjRecord
  services : List ObjRecord
  event_streams : List EventEntity

/-- The mapping `EventTool.TARGET_TYPES` of object types to REST
collections. -/
def TARGET_TYPES : List (String × String) :=
  [("VmOrTemplate", "vms"), ("Host", "hosts"), ("Service", "services")]

/-- Dictionary lookup `TARGET_TYPES[target_type]` (the key is the runtime
value of the `target_type` attribute; a non-string key is simply not in the
dictionary). -/
def lookupTargetRest : Value → Option String
  | .vstr s => TARGET_TYPES.lookup s
  | _ => none

/-- Attribute access `getattr(appliance.rest_api.collections, target_rest)`
for the collection names appearing in `TARGET_TYPES`. -/
def Appliance.collection (app : Appliance) (rest : String) : List ObjRecord :=
  if rest = "vms" then app.vms
  else if rest = "hosts" then app.hosts
  else if rest = "services" then app.services
  else []

/-- Method `EventTool.process_id`: a numeric argument is returned as is;
otherwise the target type must be mapped in `TARGET_TYPES` (else
`TypeError`), and the mapped collection is filtered by name equality —
`ValueError` when empty, the id of the first record otherwise. -/
def EventTool.process_id (app : Appliance) (target_type target_name : Value) :
    Except PyErr Value :=
  if target_name.isNumber then .ok target_name
  else
    match lookupTargetRest target_type with
    | none =>
      .error (.typeError ("Type " ++ target_type.fmt ++
        " is not specified in the auto-coercion TARGET_TYPES. " ++
        "Pass a real id of the object or extend the table."))
    | some target_rest =>
      match (app.collection target_rest).filter
          (fun r => r.name == target_name) with
      | [] =>
        .error (.valueError (target_type.fmt ++ " with name " ++
          target_name.fmt ++ " not found."))
      | r :: _ => .ok r.id

/-- Method `Event.add_target_id`: when `target_name` is present and
`target_id` absent, resolve the id via `process_id` on the `target_type`
and `target_name` values and store it under `target_id`; a `ValueError`
(target not added yet) is swallowed, leaving the event unchanged; any other
exception (`KeyError` on a missing `target_type`, `TypeError` on an
unmapped type) propagates. -/
def Event.add_target_id (app : Appliance) (e : Event) : Except PyErr Event :=
  if e.hasKey "target_name" && !(e.hasKey "target_id") then
    match e.find "target_type" with
    | none => .error (.keyError "target_type")
    | some tt =>
      match e.find "target_name" with
      | none => .error (.keyError "target_name")
      | some tn =>
        match EventTool.process_id app tt.value tn.value with
        | .ok tid => .ok ⟨setAttr e.event_attrs (EventAttr.make "target_id" tid none none)⟩
        | .error (.valueError _) => .ok e
        | .error err => .error err
  else .ok e

/-- One expected-event registration of `EventListener.listen_to` (the
`exp_event` dictionary).  Invoking the callback is an external side effect
with no bearing on the listener state, so only its presence is recorded. -/
structure Subscription where
  event : Event
  callback : Bool
  matched_events : List Event
  first_event : Bool

/-- The mutable listener state the polling loop reads and writes: the
subscription registry `_events_to_listen` and the watermark
`_last_processed_id`. -/
structure ListenerState where
  events_to_listen : List Subscription
  last_processed_id : Option Value

/-- The filterable attribute names `EventListener.FILTER_ATTRS`. -/
def FILTER_ATTRS : List String :=
  ["event_type", "target_type", "target_id", "source"]

/-- The predicate `Q('id', '>', last_processed_id)` of the query built by
`get_next_portion`, applied to an event id.  With an unset watermark the
query compares against `None`; that degenerate query is modelled as
matching nothing. -/
def idPasses (wm : Option Value) (v : Value) : Bool :=
  match wm with
  | some w => v.vgtB w
  | none => false

/-- The full query predicate of `get_next_portion`: id beyond the watermark,
and equality on every filter attribute the expectation carries with a
truthy value. -/
def entityPasses (wm : Option Value) (evt : Event) (ent : EventEntity) : Bool :=
  idPasses wm ent.id &&
    FILTER_ATTRS.all (fun k =>
      match evt.find k with
      | some a => if a.value.isFalsy then true else ent.get k == a.value
      | none => true)

/-- Method `EventListener.get_next_portion`: resolve the expectation's
target id in place, return `None` (here `Option.none`) when it still has no
`target_id`, and otherwise the event stream filtered by the built query.
The updated expectation is returned alongside, standing for the in-place
mutation of `evt`. -/
def get_next_portion (app : Appliance) (wm : Option Value) (evt : Event) :
    Except PyErr (Event × Option (List EventEntity)) :=
  match evt.add_target_id app with
  | .error e => .error e
  | .ok evt =>
    if !(evt.hasKey "target_id") then .ok (evt, none)
    else .ok (evt, some (app.event_streams.filter (entityPasses wm evt)))

/-- The body of the inner loop of `process_events` for one raw record:
build the observed event, test it against the expectation, append it to
`matched_events` on a match (after the callback, an external effect), and
set the watermark to the observed event id (`set_last_record(got_event)`,
which reads `got_event.event_attrs['id'].value`). -/
def processEntity (sub : Subscription) (wm : Option Value) (ent : EventEntity) :
    Except PyErr (Subscription × Option Value) :=
  match Event.matches sub.event (eventFromEntity ent) with
  | .error e => .error e
  | .ok m =>
    let sub2 := if m then
        { sub with matched_events := sub.matched_events ++ [eventFromEntity ent] }
      else sub
    match (eventFromEntity ent).find "id" with
    | some a => .ok (sub2, some a.value)
    | none => .error (.keyError "id")

/-- The inner loop of `process_events` over a portion of raw records. -/
def processPortion : Subscription → Option Value → List EventEntity →
    Except PyErr (Subscription × Option Value)
  | sub, wm, [] => .ok (sub, wm)
  | sub, wm, ent :: rest =>
    match processEntity sub wm ent with
    | .error e => .error e
    | .ok (sub2, wm2) => processPortion sub2 wm2 rest

/-- The body of the middle loop of `process_events` for one subscription:
skip it entirely when `first_event` is set and it already matched, fetch
the next portion otherwise (which may update the expectation in place),
skip when the portion is `None` or empty, and process the records. -/
def processSubscription (app : Appliance) (wm : Option Value)
    (sub : Subscription) : Except PyErr (Subscription × Option Value) :=
  if sub.first_event && decide (0 < sub.matched_events.length) then
    .ok (sub, wm)
  else
    match get_next_portion app wm sub.event with
    | .error e => .error e
    | .ok (ev, none) => .ok ({ sub with event := ev }, wm)
    | .ok (ev, some portion) =>
      if portion.isEmpty then .ok ({ sub with event := ev }, wm)
      else processPortion { sub with event := ev } wm portion

/-- The middle loop of `process_events` over the subscription registry,
threading the watermark. -/
def processIterAux (app : Appliance) : List Subscription → Option Value →
    Except PyErr (List Subscription × Option Value)
  | [], wm => .ok ([], wm)
  | sub :: rest, wm =>
    match processSubscription app wm sub with
    | .error e => .error e
    | .ok (sub2, wm2) =>
      match processIterAux app rest wm2 with
      | .error e => .error e
      | .ok (rest2, wm3) => .ok (sub2 :: rest2, wm3)

/-- One iteration of the outer `while` loop of `process_events` (the sleep
and the stop-signal checks are scheduling, not state). -/
def processIteration (app : Appliance) (s : ListenerState) :
    Except PyErr ListenerState :=
  match processIterAux app s.events_to_listen s.last_processed_id with
  | .error e => .error e
  | .ok (subs, wm) => .ok ⟨subs, wm⟩

/-- Several consecutive iterations of the polling loop. -/
def runIterations (app : Appliance) (s : ListenerState) :
    Nat → Except PyErr ListenerState
  | 0 => .ok s
  | n + 1 =>
    match processIteration app s with
    | .error e => .error e
    | .ok s2 => runIterations app s2 n

/-- The REST query of `set_last_record()` with no argument: the most recent
event (`limit=1, sort_order=desc, sort_by=id`); ties keep the earlier
record. -/
def latestEvent : List EventEntity → Option EventEntity
  | [] => none
  | e :: rest =>
    match latestEvent rest with
    | none => some e
    | some m => if Value.vgtB m.id e.id then some m else some e

/-- Method `EventListener.set_last_record`: with an event, store its id
attribute value as the watermark; without one, store the id of the latest
event of the stream, doing nothing when the stream is empty
(`except IndexError: pass`). -/
def set_last_record (app : Appliance) (s : ListenerState)
    (evt : Option Event) : Except PyErr ListenerState :=
  match evt with
  | some e =>
    match e.find "id" with
    | some a => .ok { s with last_processed_id := some a.value }
    | none => .error (.keyError "id")
  | none =>
    match latestEvent app.event_streams with
    | some ent => .ok { s with last_processed_id := some ent.id }
    | none => .ok s

/-- Method `EventListener.reset_events`: clear the registry. -/
def reset_events (s : ListenerState) : ListenerState :=
  { s with events_to_listen := [] }

/-- Method `EventListener.check_expected_events`:
`all([len(event['matched_events']) for event in self.got_events])`, with an
integer length truthy exactly when nonzero. -/
def check_expected_events (s : ListenerState) : Bool :=
  s.events_to_listen.all (fun sub => decide (sub.matched_events.length ≠ 0))

/-- Watermark comparison for the monotonicity invariant: an unset watermark
precedes everything, and a set one never becomes unset; on set watermarks,
equal or strictly greater. -/
def wmLe : Option Value → Option Value → Prop
  | none, _ => True
  | some _, none => False
  | some a, some b => a = b ∨ Value.vgtB b a = true

/-- A list of raw records has strictly increasing ids (the stream ordering
the design assumes of the system under test). -/
def pairwiseLtB : List EventEntity → Bool
  | [] => true
  | e :: rest => rest.all (fun x => Value.vgtB x.id e.id) && pairwiseLtB rest

/-- The matched-event counts of all subscriptions, in registry order. -/
def matchedCounts (s : ListenerState) : List Nat :=
  s.events_to_listen.map (fun sub => sub.matched_events.length)

/-- The `first_event` flags of all subscriptions, in registry order. -/
def firstFlags (s : ListenerState) : List Bool :=
  s.events_to_listen.map Subscription.first_event

/-- A matcher is compatible with an identical copy of itself exactly when
its value is `None`, or its value is truthy and its comparison function
(value equality by default) accepts the pair `(value, value)`. -/
def selfMatchable (a : EventAttr) : Bool :=
  (a.value == Value.vnone) ||
    (!a.value.isFalsy &&
      match a.cmp_func with
      | none => true
      | some f => f a.value a.value)

/-! Helper lemmas about dictionary lookup. -/

theorem lookup_mem : ∀ {l : List (String × EventAttr)} {k : String}
    {v : EventAttr}, l.lookup k = some v → (k, v) ∈ l := by
  intro l
  induction l with
  | nil => intro k v h; simp [List.lookup] at h
  | cons p rest ih =>
    obtain ⟨k1, v1⟩ := p
    intro k v h
    rw [List.lookup] at h
    split at h
    · rename_i hbeq
      cases h
      have hk : k = k1 := eq_of_beq hbeq
      subst hk
      exact List.mem_cons_self _ _
    · exact List.mem_cons_of_mem _ (ih h)

theorem lookup_exists_of_mem_keys : ∀ {l : List (String × EventAttr)}
    {k : String}, k ∈ l.map Prod.fst → ∃ v, l.lookup k = some v := by
  intro l
  induction l with
  | nil => intro k h; simp at h
  | cons p rest ih =>
    obtain ⟨k1, v1⟩ := p
    intro k h
    rw [List.lookup]
    by_cases hk : k = k1
    · subst hk
      exact ⟨v1, by simp⟩
    · have hb : (k == k1) = false := by simp [hk]
      rw [hb]
      simp only [List.map_cons, List.mem_cons] at h
      rcases h with h | h
      · exact absurd h hk
      · exact ih h

/-- In a well-formed event every attribute found under a key carries that
key as its name. -/
theorem find_name_eq {e : Event} {k : String} {v : EventAttr}
    (hwf : e.wellFormed = true) (h : e.find k = some v) : v.name = k := by
  have hmem := lookup_mem h
  have := (List.all_eq_true.mp hwf) _ hmem
  exact eq_of_beq this

/-- Matching two attributes with equal names never raises. -/
theorem matchAttr_ok_of_name_eq {sa sb : EventAttr} (h : sa.name = sb.name) :
    ∃ r, sa.matchAttr (.attr sb) = .ok r := by
  simp only [EventAttr.matchAttr]
  rw [if_neg (by simp [h])]
  by_cases hf : (sb.value.isFalsy || sa.value.isFalsy) = true
  · rw [if_pos hf]; exact ⟨_, rfl⟩
  · rw [if_neg hf]
    cases hc : sa.cmp_func with
    | none => exact ⟨_, rfl⟩
    | some f => exact ⟨_, rfl⟩

/-- Claim C3 — behaviour of `EventAttr.match` on attributes with equal
names: if either value is falsy the result is whether both values are
`None`; otherwise the custom comparison function decides when set, taking
the pair (receiver value, argument value); otherwise value equality
decides. -/
theorem attr_match_spec (a b : EventAttr) (h : a.name = b.name) :
    ((b.value.isFalsy || a.value.isFalsy) = true →
      a.matchAttr (.attr b) =
        .ok (decide (b.value = Value.vnone) && decide (a.value = Value.vnone))) ∧
    (∀ f, (b.value.isFalsy || a.value.isFalsy) = false → a.cmp_func = some f →
      a.matchAttr (.attr b) = .ok (f a.value b.value)) ∧
    ((b.value.isFalsy || a.value.isFalsy) = false → a.cmp_func = none →
      a.matchAttr (.attr b) = .ok (decide (a.value = b.value))) := by
  refine ⟨?_, ?_, ?_⟩
  · intro hf
    simp only [EventAttr.matchAttr]
    rw [if_neg (by simp [h]), if_pos hf]
  · intro f hf hc
    simp only [EventAttr.matchAttr]
    rw [if_neg (by simp [h]), if_neg (by simp [hf]), hc]
  · intro hf hc
    simp only [EventAttr.matchAttr]
    rw [if_neg (by simp [h]), if_neg (by simp [hf]), hc]

/-- Witness for C3: equal names, equal integer values, no comparison
function. -/
theorem attr_match_spec_witness :
    EventAttr.matchAttr (EventAttr.make "id" (.vint 3) none none)
      (.attr (EventAttr.make "id" (.vint 3) none none)) = .ok true :=
  (attr_match_spec (EventAttr.make "id" (.vint 3) none none)
    (EventAttr.make "id" (.vint 3) none none) rfl).2.2 (by decide) rfl

/-- Claim C10 — `EventAttr.match` raises the mismatch `ValueError` whenever
the argument is not an `EventAttr` or carries a different name. -/
theorem attr_match_type_error (a : EventAttr) :
    (∀ d, a.matchAttr (.nonAttr d) =
      .error (.valueError "Incorrect attribute is passed")) ∧
    (∀ b : EventAttr, a.name ≠ b.name →
      a.matchAttr (.attr b) =
        .error (.valueError "Incorrect attribute is passed")) := by
  constructor
  · intro d; rfl
  · intro b hne
    simp only [EventAttr.matchAttr]
    rw [if_pos hne]

/-- Witness for C10: names `id` and `source` differ, and a non-attribute
argument. -/
theorem attr_match_type_error_witness :
    EventAttr.matchAttr (EventAttr.make "id" (.vint 3) none none)
      (.attr (EventAttr.make "source" (.vint 3) none none)) =
        .error (.valueError "Incorrect attribute is passed") ∧
    EventAttr.matchAttr (EventAttr.make "id" (.vint 3) none none)
      (.nonAttr "a string") =
        .error (.valueError "Incorrect attribute is passed") :=
  ⟨(attr_match_type_error (EventAttr.make "id" (.vint 3) none none)).2
      (EventAttr.make "source" (.vint 3) none none) (by decide),
   (attr_match_type_error (EventAttr.make "id" (.vint 3) none none)).1
      "a string"⟩

/-! Compatibility of event descriptors (`Event.matches`). -/

theorem commonKeys_mem {a b : Event} {k : String} (h : k ∈ commonKeys a b) :
    k ∈ a.keys ∧ k ∈ b.keys := by
  unfold commonKeys at h
  have h2 := List.mem_filter.mp h
  exact ⟨List.mem_dedup.mp h2.1, of_decide_eq_true h2.2⟩

/-- Unfolding of one step of the matching loop once both lookups are
known. -/
theorem matchesAux_cons_some {a b : Event} {k : String} {ks : List String}
    {sa sb : EventAttr} (hsa : a.find k = some sa)
    (hsb : b.find k = some sb) :
    matchesAux a b (k :: ks) =
      match sa.matchAttr (.attr sb) with
      | .error e => .error e
      | .ok false => .ok false
      | .ok true => matchesAux a b ks := by
  rw [matchesAux, hsa, hsb]

theorem matchesAux_ok_iff (a b : Event) (ha : a.wellFormed = true)
    (hb : b.wellFormed = true) :
    ∀ ks, (∀ k ∈ ks, k ∈ a.keys ∧ k ∈ b.keys) →
      (matchesAux a b ks = .ok true ↔
        ∀ k ∈ ks, ∀ sa sb, a.find k = some sa → b.find k = some sb →
          sa.matchAttr (.attr sb) = .ok true) := by
  intro ks
  induction ks with
  | nil => intro _; simp [matchesAux]
  | cons k rest ih =>
    intro hks
    obtain ⟨hka, hkb⟩ := hks k (List.mem_cons_self _ _)
    obtain ⟨sa, hsa⟩ := lookup_exists_of_mem_keys hka
    obtain ⟨sb, hsb⟩ := lookup_exists_of_mem_keys hkb
    have hfa0 : a.find k = some sa := hsa
    have hfb0 : b.find k = some sb := hsb
    have hna : sa.name = k := find_name_eq ha hfa0
    have hnb : sb.name = k := find_name_eq hb hfb0
    obtain ⟨r, hr⟩ := matchAttr_ok_of_name_eq
      (show sa.name = sb.name by rw [hna, hnb])
    have hrest := ih (fun k2 hk2 => hks k2 (List.mem_cons_of_mem _ hk2))
    rw [matchesAux_cons_some hfa0 hfb0, hr]
    cases r with
    | true =>
      constructor
      · intro hres
        intro k2 hk2 sa2 sb2 hfa hfb
        rcases List.mem_cons.mp hk2 with rfl | hk2'
        · obtain rfl : sa2 = sa := Option.some.inj (hfa.symm.trans hfa0)
          obtain rfl : sb2 = sb := Option.some.inj (hfb.symm.trans hfb0)
          exact hr
        · exact hrest.mp hres k2 hk2' sa2 sb2 hfa hfb
      · intro hall
        exact hrest.mpr
          (fun k2 hk2 sa2 sb2 hfa hfb =>
            hall k2 (List.mem_cons_of_mem _ hk2) sa2 sb2 hfa hfb)
    | false =>
      constructor
      · intro hres
        exact absurd hres (by simp)
      · intro hall
        have hh := hall k (List.mem_cons_self _ _) sa sb hfa0 hfb0
        rw [hr] at hh
        exact absurd hh (by simp)

/-- Claim C5 — `Event.matches` returns true exactly when every attribute
name common to both descriptors matches its counterpart, and vacuously
true when no attribute name is common (attributes present in only one
descriptor are never consulted). -/
theorem matches_spec (a b : Event) (ha : a.wellFormed = true)
    (hb : b.wellFormed = true) :
    (a.matches b = .ok true ↔
      ∀ k ∈ commonKeys a b, ∀ sa sb, a.find k = some sa →
        b.find k = some sb → sa.matchAttr (.attr sb) = .ok true) ∧
    (commonKeys a b = [] → a.matches b = .ok true) := by
  constructor
  · exact matchesAux_ok_iff a b ha hb (commonKeys a b)
      (fun k hk => commonKeys_mem hk)
  · intro h
    unfold Event.matches
    rw [h]
    rfl

/-- An expectation carrying only an `id` attribute. -/
def eIdOnly : Event :=
  Event.add_attrs ⟨[]⟩ [EventAttr.make "id" (.vint 7) none none]

/-- An expectation carrying only a `source` attribute. -/
def eSrcOnly : Event :=
  Event.add_attrs ⟨[]⟩ [EventAttr.make "source" (.vstr "EVM") none none]

/-- Witness for C5: two descriptors with disjoint attribute names are
vacuously compatible. -/
theorem matches_spec_witness : Event.matches eIdOnly eSrcOnly = .ok true :=
  (matches_spec eIdOnly eSrcOnly rfl rfl).2 rfl

/-- A descriptor whose `message` attribute carries the empty string. -/
def eEmptyMsg : Event :=
  Event.add_attrs ⟨[]⟩ [EventAttr.make "message" (.vstr "") none none]

/-- Counterexample to claim C4 as stated: a descriptor whose single
attribute value is the empty string (falsy but not `None`) does not match
an identical copy of itself — `EventAttr.match` returns false when either
value is falsy and they are not both `None`. -/
theorem matches_not_reflexive :
    eEmptyMsg.wellFormed = true ∧
    Event.matches eEmptyMsg eEmptyMsg = .ok false :=
  ⟨rfl, rfl⟩

theorem matchesAux_self (d : Event)
    (h : ∀ p ∈ d.event_attrs, selfMatchable p.2 = true) :
    ∀ ks, (∀ k ∈ ks, k ∈ d.keys) → matchesAux d d ks = .ok true := by
  intro ks
  induction ks with
  | nil => intro _; rfl
  | cons k rest ih =>
    intro hks
    have hk : k ∈ d.keys := hks k (List.mem_cons_self _ _)
    obtain ⟨sa, hsa⟩ := lookup_exists_of_mem_keys hk
    have hmem : (k, sa) ∈ d.event_attrs := lookup_mem hsa
    have hsm : selfMatchable sa = true := h _ hmem
    have hm : sa.matchAttr (.attr sa) = .ok true := by
      simp only [EventAttr.matchAttr]
      rw [if_neg (by simp)]
      by_cases h1 : sa.value = Value.vnone
      · rw [if_pos (by simp [h1, Value.isFalsy])]
        simp [h1]
      · have h2 : (!sa.value.isFalsy &&
            (match sa.cmp_func with
              | none => true
              | some f => f sa.value sa.value)) = true := by
          unfold selfMatchable at hsm
          have hb : (sa.value == Value.vnone) = false := by simp [h1]
          rw [hb] at hsm
          simpa using hsm
        obtain ⟨hnf, hcmp⟩ := (Bool.and_eq_true _ _).mp h2
        have hnf2 : sa.value.isFalsy = false := by simpa using hnf
        rw [if_neg (by simp [hnf2])]
        cases hc : sa.cmp_func with
        | none => simp
        | some f =>
          rw [hc] at hcmp
          simpa using hcmp
    have hfa : Event.find d k = some sa := hsa
    rw [matchesAux_cons_some hfa hfa, hm]
    exact ih (fun k2 hk2 => hks k2 (List.mem_cons_of_mem _ hk2))

/-- Claim C4 (amended) — `matches` is reflexively true for a descriptor and
an identical copy of itself provided every attribute value is either
`None` or truthy, and every custom comparison function accepts the pair
(value, value); value equality (the default) always does.  Unconditional
reflexivity fails: see the counterexample with an empty-string value. -/
theorem matches_reflexive (d : Event)
    (h : ∀ p ∈ d.event_attrs, selfMatchable p.2 = true) :
    Event.matches d d = .ok true := by
  unfold Event.matches
  exact matchesAux_self d h (commonKeys d d) (fun k hk => (commonKeys_mem hk).1)

/-- Witness for the amended C4: a descriptor with one truthy integer
attribute and no custom comparison function. -/
theorem matches_reflexive_witness : Event.matches eIdOnly eIdOnly = .ok true :=
  matches_reflexive eIdOnly (by decide)

/-- Claim C9 — `check_expected_events` is true exactly when every
registered subscription has at least one matched event; after
`reset_events` the registry is empty and it is vacuously true. -/
theorem check_expected_events_spec (s : ListenerState) :
    (check_expected_events s = true ↔
      ∀ sub ∈ s.events_to_listen, sub.matched_events ≠ []) ∧
    check_expected_events (reset_events s) = true := by
  refine ⟨?_, rfl⟩
  unfold check_expected_events
  rw [List.all_eq_true]
  constructor
  · intro h sub hs
    have h2 := h sub hs
    simp only [decide_eq_true_eq] at h2
    intro hnil
    exact h2 (by simp [hnil])
  · intro h sub hs
    have h2 := h sub hs
    simp only [decide_eq_true_eq]
    intro hlen
    exact h2 (List.length_eq_zero.mp hlen)

/-- Witness for C9: the empty registry obtained from `reset_events`. -/
theorem check_expected_events_spec_witness :
    check_expected_events (reset_events ⟨[], some (.vint 0)⟩) = true :=
  (check_expected_events_spec ⟨[], some (.vint 0)⟩).2

/-- Unfolding of `process_id` for a non-numeric name and a mapped target
type. -/
theorem process_id_mapped (app : Appliance) {tt tn : Value} {rest : String}
    (h1 : tn.isNumber = false) (h2 : lookupTargetRest tt = some rest) :
    EventTool.process_id app tt tn =
      match (app.collection rest).filter (fun r => r.name == tn) with
      | [] => .error (.valueError (tt.fmt ++ " with name " ++ tn.fmt ++
          " not found."))
      | r :: _ => .ok r.id := by
  unfold EventTool.process_id
  rw [if_neg (by simp [h1]), h2]

/-- Claim C7 — `EventTool.process_id`: a numeric argument is returned
unchanged regardless of the target type; a non-numeric argument requires
the target type to be mapped in `TARGET_TYPES`, raising `TypeError`
otherwise; the mapped collection is then filtered by name equality,
raising `ValueError` when no record matches and returning the id of the
first matching record otherwise. -/
theorem process_id_spec (app : Appliance) (tt tn : Value) :
    (tn.isNumber = true → EventTool.process_id app tt tn = .ok tn) ∧
    (tn.isNumber = false → lookupTargetRest tt = none →
      EventTool.process_id app tt tn = .error (.typeError ("Type " ++
        tt.fmt ++ " is not specified in the auto-coercion TARGET_TYPES. " ++
        "Pass a real id of the object or extend the table."))) ∧
    (∀ rest, tn.isNumber = false → lookupTargetRest tt = some rest →
      (app.collection rest).filter (fun r => r.name == tn) = [] →
      EventTool.process_id app tt tn = .error (.valueError (tt.fmt ++
        " with name " ++ tn.fmt ++ " not found."))) ∧
    (∀ rest r rs, tn.isNumber = false → lookupTargetRest tt = some rest →
      (app.collection rest).filter (fun r => r.name == tn) = r :: rs →
      EventTool.process_id app tt tn = .ok r.id) := by
  refine ⟨?_, ?_, ?_, ?_⟩
  · intro h
    unfold EventTool.process_id
    rw [if_pos h]
  · intro h1 h2
    unfold EventTool.process_id
    rw [if_neg (by simp [h1]), h2]
  · intro rest h1 h2 h3
    rw [process_id_mapped app h1 h2, h3]
  · intro rest r rs h1 h2 h3
    rw [process_id_mapped app h1 h2, h3]

/-- An appliance whose `vms` collection holds one record `vm1` with id 42. -/
def appW : Appliance :=
  { vms := [⟨.vstr "vm1", .vint 42⟩], hosts := [], services := [],
    event_streams := [] }

/-- Witness for C7: resolving the name `vm1` of a `VmOrTemplate` yields the
id 42 of the first matching record. -/
theorem process_id_spec_witness :
    EventTool.process_id appW (.vstr "VmOrTemplate") (.vstr "vm1") =
      .ok (.vint 42) :=
  (process_id_spec appW (.vstr "VmOrTemplate") (.vstr "vm1")).2.2.2
    "vms" ⟨.vstr "vm1", .vint 42⟩ [] (by decide) (by decide) (by decide)

/-- Unfolding of `add_target_id` once both `target_type` and `target_name`
lookups are known and `target_id` is absent. -/
theorem add_target_id_eq (app : Appliance) {e : Event} {tt tn : EventAttr}
    (h1 : e.hasKey "target_id" = false)
    (h2 : e.find "target_type" = some tt)
    (h3 : e.find "target_name" = some tn) :
    e.add_target_id app =
      match EventTool.process_id app tt.value tn.value with
      | .ok tid =>
        .ok ⟨setAttr e.event_attrs (EventAttr.make "target_id" tid none none)⟩
      | .error (.valueError _) => .ok e
      | .error err => .error err := by
  have h1' : e.find "target_id" = none := by
    unfold Event.hasKey at h1
    cases hfind : e.find "target_id" with
    | none => rfl
    | some x => rw [hfind] at h1; simp at h1
  unfold Event.add_target_id
  rw [if_pos (by simp [Event.hasKey, h1', h3]), h2, h3]

/-- Claim C6 — `Event.add_target_id` acts only when `target_name` is
present and `target_id` absent: it then stores the resolved id under
`target_id` when `process_id` succeeds, and swallows a not-found
`ValueError`, leaving the descriptor unchanged; with `target_name` absent
or `target_id` present the descriptor is returned unchanged. -/
theorem add_target_id_spec (app : Appliance) (e : Event) :
    (e.hasKey "target_name" = false ∨ e.hasKey "target_id" = true →
      e.add_target_id app = .ok e) ∧
    (∀ tt tn v, e.hasKey "target_id" = false →
      e.find "target_type" = some tt → e.find "target_name" = some tn →
      EventTool.process_id app tt.value tn.value = .ok v →
      e.add_target_id app =
        .ok ⟨setAttr e.event_attrs (EventAttr.make "target_id" v none none)⟩) ∧
    (∀ tt tn msg, e.hasKey "target_id" = false →
      e.find "target_type" = some tt → e.find "target_name" = some tn →
      EventTool.process_id app tt.value tn.value = .error (.valueError msg) →
      e.add_target_id app = .ok e) := by
  refine ⟨?_, ?_, ?_⟩
  · intro h
    unfold Event.add_target_id
    rcases h with h | h <;> rw [if_neg (by simp [h])]
  · intro tt tn v h1 h2 h3 h4
    rw [add_target_id_eq app h1 h2 h3, h4]
  · intro tt tn msg h1 h2 h3 h4
    rw [add_target_id_eq app h1 h2 h3, h4]

/-- An expectation with a resolvable target name and no target id. -/
def eResolve : Event :=
  Event.add_attrs ⟨[]⟩
    [EventAttr.make "target_type" (.vstr "VmOrTemplate") none none,
     EventAttr.make "target_name" (.vstr "vm1") none none]

/-- An expectation whose target name does not resolve on `appW`. -/
def eUnresolved : Event :=
  Event.add_attrs ⟨[]⟩
    [EventAttr.make "target_type" (.vstr "VmOrTemplate") none none,
     EventAttr.make "target_name" (.vstr "vm2") none none]

/-- Witness for C6: on `appW` the name `vm1` resolves and the id 42 is
stored under `target_id`; the name `vm2` does not resolve and the
descriptor is returned unchanged with no error. -/
theorem add_target_id_spec_witness :
    eResolve.add_target_id appW =
      .ok ⟨setAttr eResolve.event_attrs
        (EventAttr.make "target_id" (.vint 42) none none)⟩ ∧
    eUnresolved.add_target_id appW = .ok eUnresolved :=
  ⟨(add_target_id_spec appW eResolve).2.1
      (EventAttr.make "target_type" (.vstr "VmOrTemplate") none none)
      (EventAttr.make "target_name" (.vstr "vm1") none none)
      (.vint 42) rfl rfl rfl rfl,
   (add_target_id_spec appW eUnresolved).2.2
      (EventAttr.make "target_type" (.vstr "VmOrTemplate") none none)
      (EventAttr.make "target_name" (.vstr "vm2") none none)
      ("VmOrTemplate with name vm2 not found.") rfl rfl rfl rfl⟩

/-! Helper lemmas about the polling loop. -/

/-- `add_target_id` is the identity when `target_name` is absent or
`target_id` is present. -/
theorem add_target_id_noop {app : Appliance} {e : Event}
    (h : e.hasKey "target_name" = false ∨ e.hasKey "target_id" = true) :
    e.add_target_id app = .ok e := by
  unfold Event.add_target_id
  rcases h with h | h <;> rw [if_neg (by simp [h])]

/-- Unfolding of `get_next_portion` once the resolution step is known. -/
theorem get_next_portion_eq {app : Appliance} {wm : Option Value}
    {evt ev2 : Event} (ha : evt.add_target_id app = .ok ev2) :
    get_next_portion app wm evt =
      (if !(ev2.hasKey "target_id") then .ok (ev2, none)
       else .ok (ev2, some (app.event_streams.filter (entityPasses wm ev2)))) := by
  unfold get_next_portion
  rw [ha]

/-- A returned portion is exactly the filtered event stream. -/
theorem get_next_portion_some {app : Appliance} {wm : Option Value}
    {evt ev : Event} {portion : List EventEntity}
    (h : get_next_portion app wm evt = .ok (ev, some portion)) :
    portion = app.event_streams.filter (entityPasses wm ev) := by
  cases ha : evt.add_target_id app with
  | error e =>
    unfold get_next_portion at h
    rw [ha] at h
    exact absurd h (by simp)
  | ok ev2 =>
    rw [get_next_portion_eq ha] at h
    by_cases hk : ev2.hasKey "target_id" = true
    · rw [if_neg (by simp [hk])] at h
      injection h with h2
      injection h2 with h3 h4
      subst h3
      injection h4 with h5
      exact h5.symm
    · rw [if_pos (by simp [Bool.not_eq_true] at hk ⊢; exact hk)] at h
      injection h with h2
      injection h2 with h3 h4
      exact absurd h4 (by simp)

/-- The id attribute of an observed event descriptor is the raw record
id. -/
theorem eventFromEntity_find_id (ent : EventEntity) :
    (eventFromEntity ent).find "id" =
      some (EventAttr.make "id" ent.id none none) := rfl

/-- Processing one raw record always advances the watermark to that
record's id and at most appends the observed event to the matched list. -/
theorem processEntity_ok {sub : Subscription} {wm : Option Value}
    {ent : EventEntity} {sub2 : Subscription} {wm2 : Option Value}
    (h : processEntity sub wm ent = .ok (sub2, wm2)) :
    wm2 = some ent.id ∧ sub2.event = sub.event ∧
      sub2.first_event = sub.first_event ∧
      (sub2.matched_events = sub.matched_events ∨
        sub2.matched_events = sub.matched_events ++ [eventFromEntity ent]) := by
  unfold processEntity at h
  rw [eventFromEntity_find_id] at h
  cases hm : Event.matches sub.event (eventFromEntity ent) with
  | error e =>
    rw [hm] at h
    exact absurd h (by simp)
  | ok m =>
    rw [hm] at h
    cases m with
    | false =>
      have h' : (Except.ok (sub, some ent.id) :
          Except PyErr (Subscription × Option Value)) = .ok (sub2, wm2) := h
      injection h' with h2
      injection h2 with h3 h4
      subst h3
      subst h4
      exact ⟨rfl, rfl, rfl, Or.inl rfl⟩
    | true =>
      have h' : (Except.ok
          ({ sub with matched_events := sub.matched_events ++ [eventFromEntity ent] },
            some ent.id) :
          Except PyErr (Subscription × Option Value)) = .ok (sub2, wm2) := h
      injection h' with h2
      injection h2 with h3 h4
      subst h3
      subst h4
      exact ⟨rfl, rfl, rfl, Or.inr rfl⟩

/-- After processing a portion the watermark is unchanged or equal to the
id of one of the portion's records. -/
theorem processPortion_wm : ∀ {P : List EventEntity} {sub : Subscription}
    {wm : Option Value} {sub2 : Subscription} {wm2 : Option Value},
    processPortion sub wm P = .ok (sub2, wm2) →
    wm2 = wm ∨ ∃ e ∈ P, wm2 = some e.id := by
  intro P
  induction P with
  | nil =>
    intro sub wm sub2 wm2 h
    unfold processPortion at h
    injection h with h2
    injection h2 with h3 h4
    exact Or.inl h4.symm
  | cons e rest ih =>
    intro sub wm sub2 wm2 h
    unfold processPortion at h
    cases hpe : processEntity sub wm e with
    | error err =>
      rw [hpe] at h
      exact absurd h (by simp)
    | ok p =>
      obtain ⟨s2, w2⟩ := p
      rw [hpe] at h
      have h' : processPortion s2 w2 rest = .ok (sub2, wm2) := h
      have hw2 : w2 = some e.id := (processEntity_ok hpe).1
      rcases ih h' with h3 | ⟨e2, he2, h3⟩
      · exact Or.inr ⟨e, List.mem_cons_self _ _, h3.trans hw2⟩
      · exact Or.inr ⟨e2, List.mem_cons_of_mem _ he2, h3⟩

theorem wmLe_refl (w : Option Value) : wmLe w w := by
  cases w with
  | none => exact trivial
  | some v => exact Or.inl rfl

theorem vgtB_trans {a b c : Value} (h1 : Value.vgtB b a = true)
    (h2 : Value.vgtB c b = true) : Value.vgtB c a = true := by
  cases a <;> cases b <;> cases c <;> simp_all [Value.vgtB] <;> omega

theorem wmLe_trans {a b c : Option Value} (h1 : wmLe a b) (h2 : wmLe b c) :
    wmLe a c := by
  cases a with
  | none => exact trivial
  | some x =>
    cases b with
    | none => exact absurd h1 (by simp [wmLe])
    | some y =>
      cases c with
      | none => exact absurd h2 (by simp [wmLe])
      | some z =>
        simp only [wmLe] at h1 h2 ⊢
        rcases h1 with rfl | h1
        · exact h2
        · rcases h2 with rfl | h2
          · exact Or.inr h1
          · exact Or.inr (vgtB_trans h1 h2)

theorem idPasses_of_entityPasses {wm : Option Value} {evt : Event}
    {ent : EventEntity} (h : entityPasses wm evt ent = true) :
    idPasses wm ent.id = true := by
  unfold entityPasses at h
  exact ((Bool.and_eq_true _ _).mp h).1

theorem wmLe_of_idPasses {wm : Option Value} {v : Value}
    (h : idPasses wm v = true) : wmLe wm (some v) := by
  cases wm with
  | none => exact trivial
  | some w => exact Or.inr (by simpa [idPasses] using h)

/-- Processing a portion whose records all pass the id filter never lowers
the watermark. -/
theorem processPortion_mono {P : List EventEntity} {sub : Subscription}
    {wm : Option Value} {sub2 : Subscription} {wm2 : Option Value}
    (hpass : ∀ e ∈ P, idPasses wm e.id = true)
    (h : processPortion sub wm P = .ok (sub2, wm2)) : wmLe wm wm2 := by
  rcases processPortion_wm h with rfl | ⟨e, he, hw⟩
  · exact wmLe_refl _
  · subst hw
    exact wmLe_of_idPasses (hpass e he)

/-- One subscription pass never lowers the watermark. -/
theorem processSubscription_mono {app : Appliance} {wm : Option Value}
    {sub sub2 : Subscription} {wm2 : Option Value}
    (h : processSubscription app wm sub = .ok (sub2, wm2)) : wmLe wm wm2 := by
  unfold processSubscription at h
  by_cases hskip : (sub.first_event && decide (0 < sub.matched_events.length)) = true
  · rw [if_pos hskip] at h
    injection h with h2
    injection h2 with h3 h4
    rw [← h4]
    exact wmLe_refl _
  · rw [if_neg hskip] at h
    cases hg : get_next_portion app wm sub.event with
    | error e =>
      rw [hg] at h
      exact absurd h (by simp)
    | ok p =>
      obtain ⟨ev, portionOpt⟩ := p
      rw [hg] at h
      cases portionOpt with
      | none =>
        have h' : (Except.ok ({ sub with event := ev }, wm) :
            Except PyErr (Subscription × Option Value)) = .ok (sub2, wm2) := h
        injection h' with h2
        injection h2 with h3 h4
        rw [← h4]
        exact wmLe_refl _
      | some portion =>
        have h' : (if portion.isEmpty then
              (.ok ({ sub with event := ev }, wm) :
                Except PyErr (Subscription × Option Value))
            else processPortion { sub with event := ev } wm portion) =
            .ok (sub2, wm2) := h
        by_cases hemp : portion.isEmpty = true
        · rw [if_pos hemp] at h'
          injection h' with h2
          injection h2 with h3 h4
          rw [← h4]
          exact wmLe_refl _
        · rw [if_neg hemp] at h'
          have hport := get_next_portion_some hg
          refine processPortion_mono (fun e he => ?_) h'
          rw [hport] at he
          exact idPasses_of_entityPasses (List.of_mem_filter he)

/-- The registry pass never lowers the watermark. -/
theorem processIterAux_mono {app : Appliance} : ∀ {subs : List Subscription}
    {wm : Option Value} {out : List Subscription × Option Value},
    processIterAux app subs wm = .ok out → wmLe wm out.2 := by
  intro subs
  induction subs with
  | nil =>
    intro wm out h
    unfold processIterAux at h
    injection h with h2
    subst h2
    exact wmLe_refl _
  | cons sub rest ih =>
    intro wm out h
    unfold processIterAux at h
    cases hps : processSubscription app wm sub with
    | error e =>
      rw [hps] at h
      exact absurd h (by simp)
    | ok p =>
      obtain ⟨s2, w2⟩ := p
      rw [hps] at h
      have h' : (match processIterAux app rest w2 with
          | .error e => (.error e : Except PyErr (List Subscription × Option Value))
          | .ok (rest2, wm3) => .ok (s2 :: rest2, wm3)) = .ok out := h
      cases hpa : processIterAux app rest w2 with
      | error e =>
        rw [hpa] at h'
        exact absurd h' (by simp)
      | ok q =>
        obtain ⟨rest2, w3⟩ := q
        rw [hpa] at h'
        have hmono := ih hpa
        injection h' with h2
        subst h2
        exact wmLe_trans (processSubscription_mono hps) hmono

/-- One polling iteration never lowers the watermark. -/
theorem processIteration_mono {app : Appliance} {s s2 : ListenerState}
    (h : processIteration app s = .ok s2) :
    wmLe s.last_processed_id s2.last_processed_id := by
  unfold processIteration at h
  cases hpa : processIterAux app s.events_to_listen s.last_processed_id with
  | error e =>
    rw [hpa] at h
    exact absurd h (by simp)
  | ok out =>
    obtain ⟨subs2, wm2⟩ := out
    rw [hpa] at h
    injection h with h2
    subst h2
    exact processIterAux_mono hpa

/-- Any number of polling iterations never lowers the watermark. -/
theorem runIterations_mono {app : Appliance} : ∀ {n : Nat}
    {s s2 : ListenerState}, runIterations app s n = .ok s2 →
    wmLe s.last_processed_id s2.last_processed_id := by
  intro n
  induction n with
  | zero =>
    intro s s2 h
    unfold runIterations at h
    injection h with h2
    subst h2
    exact wmLe_refl _
  | succ m ih =>
    intro s s2 h
    unfold runIterations at h
    cases hit : processIteration app s with
    | error e =>
      rw [hit] at h
      exact absurd h (by simp)
    | ok smid =>
      rw [hit] at h
      exact wmLe_trans (processIteration_mono hit) (ih h)

/-- In a strictly increasing record list every element left of `y` has a
smaller id. -/
theorem pairwiseLtB_left : ∀ {xs : List EventEntity} {y : EventEntity}
    {ys : List EventEntity} {x : EventEntity},
    pairwiseLtB (xs ++ y :: ys) = true → x ∈ xs →
    Value.vgtB y.id x.id = true := by
  intro xs
  induction xs with
  | nil =>
    intro y ys x h hx
    simp at hx
  | cons a rest ih =>
    intro y ys x h hx
    rw [List.cons_append, pairwiseLtB] at h
    obtain ⟨hall, hrest⟩ := (Bool.and_eq_true _ _).mp h
    rcases List.mem_cons.mp hx with rfl | hx'
    · have hy : y ∈ rest ++ y :: ys :=
        List.mem_append_right _ (List.mem_cons_self _ _)
      exact List.all_eq_true.mp hall y hy
    · exact ih hrest hx'

/-- A subscription the polling loop leaves untouched: processing it
returns it unchanged together with the unchanged watermark, on every
appliance and watermark. -/
def SubInert (sub : Subscription) : Prop :=
  ∀ (app : Appliance) (wm : Option Value),
    processSubscription app wm sub = .ok (sub, wm)

/-- A `first_event` subscription that already matched is skipped
entirely. -/
theorem subInert_of_matched (sub : Subscription) (hf : sub.first_event = true)
    (hm : sub.matched_events ≠ []) : SubInert sub := by
  intro app wm
  have hlen : 0 < sub.matched_events.length := List.length_pos.mpr hm
  unfold processSubscription
  rw [if_pos (by simp [hf, hlen])]

/-- The resolution no-op: a subscription whose expectation carries neither
`target_id` nor `target_name` is left untouched by a polling pass. -/
theorem subInert_of_no_target (sub : Subscription)
    (h1 : sub.event.hasKey "target_id" = false)
    (h2 : sub.event.hasKey "target_name" = false) : SubInert sub := by
  intro app wm
  unfold processSubscription
  by_cases hskip : (sub.first_event && decide (0 < sub.matched_events.length)) = true
  · rw [if_pos hskip]
  · rw [if_neg hskip]
    have hg : get_next_portion app wm sub.event = .ok (sub.event, none) := by
      rw [get_next_portion_eq (add_target_id_noop (Or.inl h2))]
      rw [if_pos (by simp [h1])]
    rw [hg]

/-- Inert subscriptions are preserved, at their position, by the registry
pass. -/
theorem processIterAux_preserves {app : Appliance} :
    ∀ {subs : List Subscription} {wm : Option Value}
      {out : List Subscription × Option Value} {i : Nat} {sub : Subscription},
    subs[i]? = some sub → SubInert sub →
    processIterAux app subs wm = .ok out → out.1[i]? = some sub := by
  intro subs
  induction subs with
  | nil =>
    intro wm out i sub hget _ _
    simp at hget
  | cons s rest ih =>
    intro wm out i sub hget hin h
    obtain ⟨o1, o2⟩ := out
    unfold processIterAux at h
    cases hps : processSubscription app wm s with
    | error e =>
      rw [hps] at h
      exact absurd h (by simp)
    | ok p =>
      obtain ⟨s2, w2⟩ := p
      rw [hps] at h
      have h' : (match processIterAux app rest w2 with
          | .error e => (.error e : Except PyErr (List Subscription × Option Value))
          | .ok (rest2, wm3) => .ok (s2 :: rest2, wm3)) = .ok (o1, o2) := h
      cases hpa : processIterAux app rest w2 with
      | error e =>
        rw [hpa] at h'
        exact absurd h' (by simp)
      | ok q =>
        obtain ⟨rest2, w3⟩ := q
        rw [hpa] at h'
        injection h' with h2
        injection h2 with h3 h4
        subst h3
        cases i with
        | zero =>
          have hs : s = sub := by simpa using hget
          subst hs
          have hps2 := (hin app wm).symm.trans hps
          injection hps2 with h5
          have h6 : s = s2 := congrArg Prod.fst h5
          simp [← h6]
        | succ j =>
          have hg2 : rest[j]? = some sub := by simpa using hget
          have := ih hg2 hin hpa
          simpa using this

/-- Inert subscriptions are preserved by one polling iteration. -/
theorem processIteration_preserves {app : Appliance} {s s2 : ListenerState}
    {i : Nat} {sub : Subscription}
    (hget : s.events_to_listen[i]? = some sub) (hin : SubInert sub)
    (h : processIteration app s = .ok s2) :
    s2.events_to_listen[i]? = some sub := by
  unfold processIteration at h
  cases hpa : processIterAux app s.events_to_listen s.last_processed_id with
  | error e =>
    rw [hpa] at h
    exact absurd h (by simp)
  | ok out =>
    obtain ⟨subs2, wm2⟩ := out
    rw [hpa] at h
    injection h with h2
    subst h2
    exact processIterAux_preserves hget hin hpa

/-- Inert subscriptions are preserved by any number of polling
iterations. -/
theorem runIterations_preserves {app : Appliance} : ∀ {n : Nat}
    {s s2 : ListenerState} {i : Nat} {sub : Subscription},
    s.events_to_listen[i]? = some sub → SubInert sub →
    runIterations app s n = .ok s2 → s2.events_to_listen[i]? = some sub := by
  intro n
  induction n with
  | zero =>
    intro s s2 i sub hget _ h
    unfold runIterations at h
    injection h with h2
    subst h2
    exact hget
  | succ m ih =>
    intro s s2 i sub hget hin h
    unfold runIterations at h
    cases hit : processIteration app s with
    | error e =>
      rw [hit] at h
      exact absurd h (by simp)
    | ok smid =>
      rw [hit] at h
      exact ih (processIteration_preserves hget hin hit) hin h

/-! Concrete fixtures for the polling-loop claims. -/

/-- An expectation constraining only `target_id = 1`. -/
def expEvent : Event :=
  Event.add_attrs ⟨[]⟩ [EventAttr.make "target_id" (.vint 1) none none]

/-- A raw `vm_create` record for target 1, id 10. -/
def ent1 : EventEntity :=
  { created_on := .vnone, event_type := .vstr "vm_create", href := .vnone,
    id := .vint 10, message := .vnone, source := .vnone,
    target_id := .vint 1, target_type := .vstr "VmOrTemplate",
    timestamp := .vnone }

/-- A second matching raw record, id 11. -/
def ent2 : EventEntity := { ent1 with id := .vint 11 }

/-- An appliance whose event stream holds the two matching records. -/
def app0 : Appliance :=
  { vms := [], hosts := [], services := [], event_streams := [ent1, ent2] }

/-- A fresh `first_event` subscription on `expEvent`. -/
def sub0 : Subscription :=
  { event := expEvent, callback := false, matched_events := [],
    first_event := true }

/-- A listener holding `sub0` with the watermark at 0. -/
def s0 : ListenerState :=
  { events_to_listen := [sub0], last_processed_id := some (.vint 0) }

/-- Counterexample to claim C1 as stated: a single polling pass over a
stream holding two records that both match a fresh `first_event`
subscription appends both of them, so `matched_events` reaches length 2.
The skip guard is only consulted at the start of each pass, not between
records of one portion. -/
theorem first_event_counterexample :
    firstFlags s0 = [true] ∧ matchedCounts s0 = [0] ∧
    (processIteration app0 s0).map matchedCounts = .ok [2] :=
  ⟨rfl, rfl, rfl⟩

/-- Claim C1 (amended) — once a `first_event` subscription has a non-empty
`matched_events`, every later polling iteration skips it and leaves it
(and in particular its `matched_events`) unchanged; all its matched events
therefore stem from the single pass that first filled it, and that pass
may append more than one event. -/
theorem first_event_skip (app : Appliance) (s : ListenerState) (n : Nat)
    (s2 : ListenerState) (i : Nat) (sub : Subscription)
    (hget : s.events_to_listen[i]? = some sub)
    (hf : sub.first_event = true) (hm : sub.matched_events ≠ [])
    (hrun : runIterations app s n = .ok s2) :
    s2.events_to_listen[i]? = some sub :=
  runIterations_preserves hget (subInert_of_matched sub hf hm) hrun

/-- A `first_event` subscription that has already matched once. -/
def subM : Subscription :=
  { event := expEvent, callback := false,
    matched_events := [eventFromEntity ent1], first_event := true }

/-- A listener holding `subM` with the watermark at 0. -/
def sM : ListenerState :=
  { events_to_listen := [subM], last_processed_id := some (.vint 0) }

/-- Witness for the amended C1: `subM` survives one polling iteration over
`app0` unchanged (the iteration does not even advance the watermark, since
the subscription is skipped). -/
theorem first_event_skip_witness : sM.events_to_listen[0]? = some subM :=
  first_event_skip app0 sM 1 sM 0 subM rfl rfl (by simp [subM]) rfl

/-- Claim C2 — watermark monotonicity.  First conjunct: across any number
of polling iterations the watermark never decreases (in particular it
never becomes unset once set).  Second conjunct: each individual update
inside one portion sets the watermark to the processed record's id, which
is at least the previous value, for any portion whose records pass the
id filter and arrive in the strictly increasing id order the design
assumes of the event stream. -/
theorem watermark_monotone :
    (∀ (app : Appliance) (s : ListenerState) (n : Nat) (s2 : ListenerState),
      runIterations app s n = .ok s2 →
      wmLe s.last_processed_id s2.last_processed_id) ∧
    (∀ (sub : Subscription) (wm : Option Value) (P1 : List EventEntity)
        (e : EventEntity) (P2 : List EventEntity) (sub1 : Subscription)
        (w1 : Option Value) (sub2 : Subscription) (w2 : Option Value),
      pairwiseLtB (P1 ++ e :: P2) = true →
      (∀ x ∈ P1 ++ e :: P2, idPasses wm x.id = true) →
      processPortion sub wm P1 = .ok (sub1, w1) →
      processEntity sub1 w1 e = .ok (sub2, w2) →
      w2 = some e.id ∧ wmLe w1 w2) := by
  constructor
  · intro app s n s2 h
    exact runIterations_mono h
  · intro sub wm P1 e P2 sub1 w1 sub2 w2 hsort hpass hport hent
    have hw2 : w2 = some e.id := (processEntity_ok hent).1
    refine ⟨hw2, ?_⟩
    subst hw2
    rcases processPortion_wm hport with rfl | ⟨x, hx, hw1⟩
    · exact wmLe_of_idPasses
        (hpass e (List.mem_append_right _ (List.mem_cons_self _ _)))
    · subst hw1
      exact Or.inr (pairwiseLtB_left hsort hx)

/-- A non-`first_event` subscription on `expEvent`. -/
def subF : Subscription :=
  { event := expEvent, callback := false, matched_events := [],
    first_event := false }

/-- A listener holding `subF` with the watermark at 0. -/
def sF : ListenerState :=
  { events_to_listen := [subF], last_processed_id := some (.vint 0) }

/-- Witness for C2: after one iteration over `app0` the watermark moved
from 0 to 11, and the single update for the record with id 10 set the
watermark from 0 to 10. -/
theorem watermark_monotone_witness :
    wmLe (some (Value.vint 0)) (some (Value.vint 11)) ∧
    wmLe (some (Value.vint 0)) (some (Value.vint 10)) :=
  ⟨watermark_monotone.1 app0 sF 1
      ⟨[{ subF with
          matched_events := [eventFromEntity ent1, eventFromEntity ent2] }],
        some (.vint 11)⟩ rfl,
   (watermark_monotone.2 subF (some (.vint 0)) [] ent1 [ent2] subF
      (some (.vint 0)) { subF with matched_events := [eventFromEntity ent1] }
      (some (.vint 10)) (by decide) (by decide) rfl rfl).2⟩

/-- Claim C8 — an expectation with neither `target_id` nor `target_name`
never reaches the event-source query: `get_next_portion` returns no
events (and leaves the expectation unchanged), such a subscription is
left untouched by every polling pass, and across any number of polling
iterations it stays exactly as registered — in particular it can never
accumulate a matched event. -/
theorem no_target_no_events (app : Appliance) (wm : Option Value)
    (evt : Event) (h1 : evt.hasKey "target_id" = false)
    (h2 : evt.hasKey "target_name" = false) :
    get_next_portion app wm evt = .ok (evt, none) ∧
    (∀ sub : Subscription, sub.event = evt →
      processSubscription app wm sub = .ok (sub, wm)) ∧
    (∀ (s : ListenerState) (n : Nat) (s2 : ListenerState) (i : Nat)
        (sub : Subscription), s.events_to_listen[i]? = some sub →
      sub.event = evt → runIterations app s n = .ok s2 →
      s2.events_to_listen[i]? = some sub) := by
  refine ⟨?_, ?_, ?_⟩
  · rw [get_next_portion_eq (add_target_id_noop (Or.inl h2))]
    rw [if_pos (by simp [h1])]
  · intro sub he
    exact subInert_of_no_target sub (by rw [he]; exact h1)
      (by rw [he]; exact h2) app wm
  · intro s n s2 i sub hget he hrun
    exact runIterations_preserves hget
      (subInert_of_no_target sub (by rw [he]; exact h1)
        (by rw [he]; exact h2)) hrun

/-- An expectation constraining only the event type — no target reference
at all. -/
def eTypeOnly : Event :=
  Event.add_attrs ⟨[]⟩
    [EventAttr.make "event_type" (.vstr "vm_create") none none]

/-- A subscription on `eTypeOnly`. -/
def subT : Subscription :=
  { event := eTypeOnly, callback := false, matched_events := [],
    first_event := false }

/-- A listener holding `subT` with the watermark at 0. -/
def sT : ListenerState :=
  { events_to_listen := [subT], last_processed_id := some (.vint 0) }

/-- Witness for C8: on `app0`, whose stream holds two `vm_create` records,
the expectation lacking any target reference yields no portion, and the
subscription survives an iteration with its empty `matched_events`. -/
theorem no_target_no_events_witness :
    get_next_portion app0 (some (.vint 0)) eTypeOnly = .ok (eTypeOnly, none) ∧
    sT.events_to_listen[0]? = some subT :=
  ⟨(no_target_no_events app0 (some (.vint 0)) eTypeOnly rfl rfl).1,
   (no_target_no_events app0 (some (.vint 0)) eTypeOnly rfl rfl).2.2
      sT 1 sT 0 subT rfl rfl rfl⟩

end Events
